import Mathlib

/-!
Verification of the pagination, retry, recursive-search and export logic of
the `chad-ramey/dropbox` scripts.  Each Python routine is shallowly embedded
as an executable Lean definition; network responses are supplied explicitly
(a list of pages, or a function from attempt index to outcome), since the
scripts are pure sequential request/response pipelines.
-/

/-- One paginated API response, as consumed by the pagination loops:
`records` is the page's record list (`members` in the members-list script,
`entries` in the file-export script), `cursor` the opaque continuation
token and `has_more` the backend's more-pages flag. -/
structure Page (α : Type) where
  records : List α
  cursor : Option String
  has_more : Bool
  deriving Repr, DecidableEq

namespace DropboxMembersListv2

/-- The `while has_more:` loop of `main` in `dropbox_members_listv2.py`
(lines 116-122): starting from accumulator `acc` (initially `[]`), each
iteration issues one request, receives the next page, extends the
accumulator with its members and continues while `has_more` is true.
The backend's successive responses are the list `pages`; the returned
`Nat` counts the requests issued (initial request included). -/
def members_main_loop {α : Type} : List (Page α) → List α → List α × Nat
  | [], acc => (acc, 0)
  | p :: rest, acc =>
      let out := if p.has_more then members_main_loop rest (acc ++ p.records) else (acc ++ p.records, 0)
      (out.1, out.2 + 1)

/-- The pages the loop actually receives: every response up to and
including the first one whose `has_more` is false. -/
def received_pages {α : Type} : List (Page α) → List (Page α)
  | [] => []
  | p :: rest => if p.has_more then p :: received_pages rest else [p]

end DropboxMembersListv2

namespace DboxUserFileExport

/-- The `while data.get('has_more', False):` loop of
`dbox_user_file_export.py` (lines 91-106): `b` is the `has_more` flag of
the page received last, `conts` the backend's continuation responses in
order, `acc` the accumulated `entries`.  The returned `Nat` counts the
continuation requests issued. -/
def export_pagination_loop {α : Type} : Bool → List (Page α) → List α → List α × Nat
  | false, _, acc => (acc, 0)
  | true, [], acc => (acc, 0)
  | true, p :: rest, acc =>
      let out := export_pagination_loop p.has_more rest (acc ++ p.records)
      (out.1, out.2 + 1)

/-- The whole pagination phase of `dbox_user_file_export.py`:
`entries = data.get('entries', [])` from the first response, then the
continuation loop. -/
def export_entries {α : Type} (first : Page α) (conts : List (Page α)) : List α × Nat :=
  export_pagination_loop first.has_more conts first.records

/-- The continuation pages the loop actually receives, given the first
page's `has_more` flag. -/
def received_cont_pages {α : Type} : Bool → List (Page α) → List (Page α)
  | false, _ => []
  | true, [] => []
  | true, p :: rest => p :: received_cont_pages p.has_more rest

end DboxUserFileExport

section PaginationLemmas

open DropboxMembersListv2 DboxUserFileExport

theorem members_main_loop_fst {α : Type} (pages : List (Page α)) :
    ∀ acc : List α, (members_main_loop pages acc).1 = acc ++ (received_pages pages).flatMap Page.records := by
  induction pages with
  | nil => intro acc; simp [members_main_loop, received_pages]
  | cons p rest ih =>
      intro acc
      by_cases h : p.has_more
      · simp [members_main_loop, received_pages, h, ih, List.append_assoc]
      · simp [members_main_loop, received_pages, h]

theorem export_pagination_loop_fst {α : Type} (conts : List (Page α)) :
    ∀ (b : Bool) (acc : List α),
      (export_pagination_loop b conts acc).1 = acc ++ (received_cont_pages b conts).flatMap Page.records := by
  induction conts with
  | nil => intro b acc; cases b <;> simp [export_pagination_loop, received_cont_pages]
  | cons p rest ih =>
      intro b acc
      cases b with
      | false => simp [export_pagination_loop, received_cont_pages]
      | true => simp [export_pagination_loop, received_cont_pages, ih, List.append_assoc]

end PaginationLemmas

/-- C1: for both pagination loops, the accumulated sequence is exactly the
concatenation, in reception order, of the received pages' record lists; and
whenever the backend serves no record on two received pages (the
concatenation is duplicate-free), the accumulated result holds no record
twice. -/
theorem C1_pagination_concat {α : Type} (pages : List (Page α))
    (first : Page α) (conts : List (Page α))
    (hm : ((DropboxMembersListv2.received_pages pages).flatMap Page.records).Nodup)
    (he : (first.records ++ (DboxUserFileExport.received_cont_pages first.has_more conts).flatMap Page.records).Nodup) :
    ((DropboxMembersListv2.members_main_loop pages []).1
        = (DropboxMembersListv2.received_pages pages).flatMap Page.records
      ∧ (DropboxMembersListv2.members_main_loop pages []).1.Nodup)
    ∧ ((DboxUserFileExport.export_entries first conts).1
        = first.records ++ (DboxUserFileExport.received_cont_pages first.has_more conts).flatMap Page.records
      ∧ (DboxUserFileExport.export_entries first conts).1.Nodup) := by
  have h1 := members_main_loop_fst pages ([] : List α)
  have h2 := export_pagination_loop_fst conts first.has_more first.records
  simp only [List.nil_append] at h1
  refine ⟨⟨h1, ?_⟩, ⟨h2, ?_⟩⟩
  · rw [h1]; exact hm
  · rw [DboxUserFileExport.export_entries, h2]; exact he

/-- Witness for C1 at a concrete two-page backend. -/
theorem C1_pagination_concat_witness :
    ((DropboxMembersListv2.members_main_loop
        [⟨[1, 2], some "c", true⟩, ⟨[3], none, false⟩] ([] : List Nat)).1 = [1, 2, 3]
      ∧ (DboxUserFileExport.export_entries (⟨[1, 2], some "c", true⟩ : Page Nat)
          [⟨[3], none, false⟩]).1 = [1, 2, 3]) := by
  have h := C1_pagination_concat
    [(⟨[1, 2], some "c", true⟩ : Page Nat), ⟨[3], none, false⟩]
    (⟨[1, 2], some "c", true⟩ : Page Nat) [⟨[3], none, false⟩]
    (by decide) (by decide)
  refine ⟨?_, ?_⟩
  · rw [h.1.1]; decide
  · rw [h.2.1]; decide

/-- C2: if the first page reports `has_more = false`, the members-list loop
issues exactly one request (the initial one, so no continuation request)
and the file-export loop issues zero continuation requests, and both
return exactly that first page's records in order. -/
theorem C2_first_page_no_continuation {α : Type} (p : Page α)
    (rest conts : List (Page α)) (h : p.has_more = false) :
    DropboxMembersListv2.members_main_loop (p :: rest) [] = (p.records, 1)
    ∧ DboxUserFileExport.export_entries p conts = (p.records, 0) := by
  constructor
  · simp [DropboxMembersListv2.members_main_loop, h]
  · simp [DboxUserFileExport.export_entries, DboxUserFileExport.export_pagination_loop, h]

/-- Witness for C2 at a concrete one-page backend. -/
theorem C2_first_page_no_continuation_witness :
    DropboxMembersListv2.members_main_loop
        [(⟨[7, 8], none, false⟩ : Page Nat), ⟨[9], none, false⟩] [] = ([7, 8], 1)
    ∧ DboxUserFileExport.export_entries (⟨[7, 8], none, false⟩ : Page Nat) [⟨[9], none, false⟩]
        = ([7, 8], 0) :=
  C2_first_page_no_continuation (⟨[7, 8], none, false⟩ : Page Nat)
    [⟨[9], none, false⟩] [⟨[9], none, false⟩] rfl

namespace DboxUserFileExport

/-- What one call to `make_request` produced: the returned value
(`Except.error e` models a raised exception propagating out;
`.ok none` models the implicit `None` returned when `retries = 0` and the
`for` loop never runs), how many attempts were made, and the durations of
the `sleep(2 ** i)` backoff calls. -/
structure ReqTrace (E R : Type) where
  result : Except E (Option R)
  attempts : Nat
  sleeps : List Nat
  deriving Repr

/-- The `for i in range(retries)` loop of `make_request` in
`dbox_user_file_export.py` (lines 69-80), starting at attempt index `i`
with `fuel = retries - i` iterations left.  `backend i` is the outcome of
attempt `i`: `.ok r` when `requests.post` returns and `raise_for_status`
passes, `.error e` when either raises a `RequestException`.  On failure
with `i < retries - 1` (i.e. `fuel ≠ 0` after this attempt) the loop
sleeps `2 ** i` and retries; on the last attempt it re-raises. -/
def make_request_go {E R : Type} (backend : Nat → Except E R) : Nat → Nat → ReqTrace E R
  | _, 0 => ⟨.ok none, 0, []⟩
  | i, fuel + 1 =>
      match backend i with
      | .ok r => ⟨.ok (some r), 1, []⟩
      | .error e =>
          if fuel = 0 then ⟨.error e, 1, []⟩
          else
            let t := make_request_go backend (i + 1) fuel
            ⟨t.result, t.attempts + 1, 2 ^ i :: t.sleeps⟩

/-- `make_request(url, headers, payload, retries=3, timeout=10)`: run the
attempt loop from attempt 0. -/
def make_request {E R : Type} (backend : Nat → Except E R) (retries : Nat := 3) : ReqTrace E R :=
  make_request_go backend 0 retries

theorem make_request_go_success {E R : Type} (backend : Nat → Except E R) (r : R) :
    ∀ (N i fuel : Nat), N < fuel →
      (∀ j, j < N → ∃ e, backend (i + j) = .error e) →
      backend (i + N) = .ok r →
      (make_request_go backend i fuel).result = .ok (some r) := by
  intro N
  induction N with
  | zero =>
      intro i fuel hfuel _ hok
      match fuel, hfuel with
      | fuel + 1, _ =>
        simp only [Nat.add_zero] at hok
        simp [make_request_go, hok]
  | succ N ih =>
      intro i fuel hfuel hfail hok
      match fuel, hfuel with
      | fuel + 1, hfuel =>
        obtain ⟨e, he⟩ := hfail 0 (Nat.succ_pos N)
        simp only [Nat.add_zero] at he
        have hfz : ¬ fuel = 0 := by omega
        have hrest : (make_request_go backend (i + 1) fuel).result = .ok (some r) := by
          refine ih (i + 1) fuel (by omega) ?_ ?_
          · intro j hj
            obtain ⟨e', he'⟩ := hfail (j + 1) (by omega)
            refine ⟨e', ?_⟩
            rw [← he']
            congr 1
            omega
          · rw [← hok]
            congr 1
            omega
        simp only [make_request_go, he, hfz, if_false]
        exact hrest

end DboxUserFileExport

/-- C3: when the backend fails transiently on the first `N` attempts with
`N` below the retry bound and succeeds on attempt `N`, `make_request`
returns that first successful response (no exception escapes). -/
theorem C3_retry_until_success {E R : Type} (backend : Nat → Except E R)
    (N retries : Nat) (r : R) (hN : N < retries)
    (hfail : ∀ j, j < N → ∃ e, backend j = .error e)
    (hok : backend N = .ok r) :
    (DboxUserFileExport.make_request backend retries).result = .ok (some r) := by
  have := DboxUserFileExport.make_request_go_success backend r N 0 retries hN
  simp only [Nat.zero_add] at this
  exact this hfail hok

/-- Witness for C3: one failure then success, retry bound 3. -/
theorem C3_retry_until_success_witness :
    (DboxUserFileExport.make_request
      (fun i => if i = 0 then (.error "timeout" : Except String Nat) else .ok 42) 3).result
      = .ok (some 42) :=
  C3_retry_until_success (fun i => if i = 0 then (.error "timeout" : Except String Nat) else .ok 42)
    1 3 42 (by decide)
    (fun j hj => ⟨"timeout", by interval_cases j; rfl⟩)
    rfl

/-- C4: when the backend fails on every one of the first three attempts,
`make_request` with its default bound `retries = 3` makes exactly three
attempts, sleeps the exponential-backoff schedule `[2^0, 2^1]`, and raises
the third attempt's error, which propagates. -/
theorem C4_retries_exhausted {E R : Type} (backend : Nat → Except E R)
    (e : Nat → E) (h : ∀ i, i < 3 → backend i = .error (e i)) :
    DboxUserFileExport.make_request backend 3
      = ⟨.error (e 2), 3, [1, 2]⟩ := by
  have h0 := h 0 (by decide)
  have h1 := h 1 (by decide)
  have h2 := h 2 (by decide)
  simp [DboxUserFileExport.make_request, DboxUserFileExport.make_request_go, h0, h1, h2]

/-- Witness for C4: a backend failing every attempt. -/
theorem C4_retries_exhausted_witness :
    DboxUserFileExport.make_request (fun i => (.error i : Except Nat Nat)) 3
      = ⟨.error 2, 3, [1, 2]⟩ :=
  C4_retries_exhausted (fun i => (.error i : Except Nat Nat)) (fun i => i) (fun _ _ => rfl)

namespace DboxUserFileExport

/-- The outcome of one `requests.post(url, headers, data, timeout)` call:
either the call raises a `RequestException` (connection error, timeout), or
a response object comes back carrying an HTTP status code and a body. -/
inductive HttpOutcome where
  | exn (msg : String)
  | resp (status : Nat) (body : String)
  deriving Repr, DecidableEq

/-- A response object as seen after `raise_for_status()` passes. -/
structure HttpResponse where
  status : Nat
  body : String
  deriving Repr, DecidableEq

/-- An exception caught by `except requests.exceptions.RequestException`:
either the connection-level error raised by `requests.post` itself, or the
`HTTPError` (a `RequestException` subclass) raised by
`response.raise_for_status()` on an error status. -/
inductive ReqError where
  | connection (msg : String)
  | httpStatus (status : Nat)
  deriving Repr, DecidableEq

/-- The body of `make_request`'s `try` block (lines 72-74):
`requests.post` followed by `response.raise_for_status()`, which raises
`HTTPError` exactly when the status code is an error code (`400 ≤ status`).
Both failure modes surface as the same caught exception type. -/
def http_attempt (net : Nat → HttpOutcome) (i : Nat) : Except ReqError HttpResponse :=
  match net i with
  | .exn m => .error (.connection m)
  | .resp s b => if 400 ≤ s then .error (.httpStatus s) else .ok ⟨s, b⟩

end DboxUserFileExport

namespace DropboxMembersListv2

/-- The response to the single request `get_members` issues: HTTP status,
raw text, and the optional JSON fields `members`, `cursor`, `has_more`
read via `result.get(...)`. -/
structure MembersApiResponse (M : Type) where
  status : Nat
  text : String
  members : Option (List M)
  cursor : Option String
  has_more : Option Bool

/-- `get_members` in `dropbox_members_listv2.py` (lines 32-69): issues one
request with no retry wrapper; if `response.status_code != 200` it raises
`Exception(f"API Request Failed: {response.text}")` at once, otherwise it
returns `(members, cursor, has_more)` with defaults `[]`, `None`, `False`. -/
def get_members {M : Type} (resp : MembersApiResponse M) :
    Except String (List M × Option String × Bool) :=
  if resp.status ≠ 200 then .error ("API Request Failed: " ++ resp.text)
  else .ok (resp.members.getD [], resp.cursor, resp.has_more.getD false)

end DropboxMembersListv2

/-- Counterexample to C5: a definitive HTTP error (404 on attempt 0) is NOT
surfaced without retrying by `make_request`; the loop catches the
`HTTPError` raised by `raise_for_status`, sleeps, retries, and here
returns attempt 1's success after two attempts, where the claim demands an
abort after one. -/
theorem C5_counterexample :
    DboxUserFileExport.make_request
      (DboxUserFileExport.http_attempt
        (fun i => if i = 0 then .resp 404 "not found" else .resp 200 "ok")) 3
      = ⟨.ok (some ⟨200, "ok"⟩), 2, [1]⟩ := rfl

/-- C5 as amended: the members-list script's `get_members` aborts at once
on any non-200 response (it issues a single request and raises, no retry),
but the file-export script's `make_request` does not distinguish HTTP
error statuses from transient network failures: an attempt whose response
has an error status (`400 ≤ s`) is, while attempts remain, retried after
the exponential-backoff sleep exactly like a connection failure. -/
theorem C5_http_error_handling {M : Type} (resp : DropboxMembersListv2.MembersApiResponse M)
    (hst : resp.status ≠ 200)
    (net : Nat → DboxUserFileExport.HttpOutcome) (i fuel s : Nat) (b : String)
    (hresp : net i = .resp s b) (hs : 400 ≤ s) (hfuel : ¬ fuel = 0) :
    DropboxMembersListv2.get_members resp = .error ("API Request Failed: " ++ resp.text)
    ∧ DboxUserFileExport.make_request_go (DboxUserFileExport.http_attempt net) i (fuel + 1)
        = ⟨(DboxUserFileExport.make_request_go (DboxUserFileExport.http_attempt net) (i + 1) fuel).result,
           (DboxUserFileExport.make_request_go (DboxUserFileExport.http_attempt net) (i + 1) fuel).attempts + 1,
           2 ^ i :: (DboxUserFileExport.make_request_go (DboxUserFileExport.http_attempt net) (i + 1) fuel).sleeps⟩ := by
  constructor
  · simp [DropboxMembersListv2.get_members, hst]
  · simp [DboxUserFileExport.make_request_go, DboxUserFileExport.http_attempt, hresp, hs, hfuel]

/-- Witness for the amended C5 at a concrete response and backend. -/
theorem C5_http_error_handling_witness :
    DropboxMembersListv2.get_members
        (⟨500, "server error", some [1], none, some false⟩ : DropboxMembersListv2.MembersApiResponse Nat)
      = .error ("API Request Failed: " ++ "server error")
    ∧ DboxUserFileExport.make_request_go
        (DboxUserFileExport.http_attempt (fun i => if i = 0 then .resp 404 "not found" else .resp 200 "ok")) 0 (1 + 1)
      = ⟨(DboxUserFileExport.make_request_go
            (DboxUserFileExport.http_attempt (fun i => if i = 0 then .resp 404 "not found" else .resp 200 "ok")) (0 + 1) 1).result,
         (DboxUserFileExport.make_request_go
            (DboxUserFileExport.http_attempt (fun i => if i = 0 then .resp 404 "not found" else .resp 200 "ok")) (0 + 1) 1).attempts + 1,
         2 ^ 0 :: (DboxUserFileExport.make_request_go
            (DboxUserFileExport.http_attempt (fun i => if i = 0 then .resp 404 "not found" else .resp 200 "ok")) (0 + 1) 1).sleeps⟩ :=
  C5_http_error_handling
    (⟨500, "server error", some [1], none, some false⟩ : DropboxMembersListv2.MembersApiResponse Nat)
    (by decide)
    (fun i => if i = 0 then .resp 404 "not found" else .resp 200 "ok") 0 1 404 "not found"
    rfl (by decide) (by decide)

/-- One entry of a Dropbox account's namespace, flattened: `segs` is its
`path_lower` broken into path segments from the root, `name` its entry
name and `isFolder` whether its metadata is `dropbox.files.FolderMetadata`. -/
structure DbxEntry where
  name : String
  segs : List String
  isFolder : Bool
  deriving Repr, DecidableEq

/-- `p` is a proper ancestor path of `q`. -/
def properlyWithin (p q : List String) : Prop := p.length < q.length ∧ q.take p.length = p

instance (p q : List String) : Decidable (properlyWithin p q) := by
  unfold properlyWithin; infer_instance

theorem properlyWithin_trans {p q r : List String}
    (h1 : properlyWithin p q) (h2 : properlyWithin q r) : properlyWithin p r := by
  obtain ⟨hl1, ht1⟩ := h1
  obtain ⟨hl2, ht2⟩ := h2
  refine ⟨hl1.trans hl2, ?_⟩
  have h : r.take p.length = (r.take q.length).take p.length := by
    rw [List.take_take, Nat.min_eq_left (Nat.le_of_lt hl1)]
  rw [h, ht2, ht1]

theorem properlyWithin_irrefl (p : List String) : ¬ properlyWithin p p := by
  intro h
  exact Nat.lt_irrefl _ h.1

/-- Modelled from the Dropbox API both search scripts call:
`dbx.files_search(folder_path, search_query).matches` searches the whole
subtree below `folder_path`, returning every entry properly below it whose
name matches the query, in namespace order. -/
def files_search (account : List DbxEntry) (folderPath : List String) (q : String → Bool) : List DbxEntry :=
  account.filter (fun e => decide (properlyWithin folderPath e.segs) && q e.name)

theorem length_filter_le_of_imp {α : Type} (l : List α) (p q : α → Bool)
    (himp : ∀ x, p x = true → q x = true) :
    (l.filter p).length ≤ (l.filter q).length := by
  induction l with
  | nil => simp
  | cons a t ih =>
      by_cases hpa : p a = true
      · simp [List.filter_cons, hpa, himp a hpa, Nat.succ_le_succ ih]
      · simp only [List.filter_cons, hpa, if_false, Bool.false_eq_true]
        by_cases hqa : q a = true
        · simp only [hqa, if_true]
          exact ih.trans (Nat.le_succ _)
        · simp only [hqa, if_false, Bool.false_eq_true]
          exact ih

theorem length_filter_lt_of_mem {α : Type} {l : List α} {p q : α → Bool} {e : α}
    (he : e ∈ l) (hq : q e = true) (hp : p e = false)
    (himp : ∀ x, p x = true → q x = true) :
    (l.filter p).length < (l.filter q).length := by
  induction l with
  | nil => cases he
  | cons a t ih =>
      rcases List.mem_cons.mp he with rfl | hmem
      · have hpf : p e ≠ true := by simp [hp]
        simp only [List.filter_cons, hpf, if_false, hq, if_true, Bool.false_eq_true]
        exact Nat.lt_succ_of_le (length_filter_le_of_imp t p q himp)
      · have hle := ih hmem
        by_cases hpa : p a = true
        · simp [List.filter_cons, hpa, himp a hpa, Nat.succ_lt_succ hle]
        · simp only [List.filter_cons, hpa, if_false, Bool.false_eq_true]
          by_cases hqa : q a = true
          · simp only [hqa, if_true]
            exact hle.trans (Nat.lt_succ_self _)
          · simp only [hqa, if_false, Bool.false_eq_true]
            exact hle

theorem attach_flatMap_eq {α β : Type} (l : List α) (h : α → List β) :
    l.attach.flatMap (fun x => h x.1) = l.flatMap h := by
  induction l with
  | nil => simp
  | cons a t ih => simp [List.attach_cons, List.flatMap_map, Function.comp, ih]

theorem flatMap_eq_map_of_mem {α β : Type} (l : List α) (f : α → List β) (g : α → β)
    (h : ∀ x ∈ l, f x = [g x]) : l.flatMap f = l.map g := by
  induction l with
  | nil => rfl
  | cons a t ih =>
      simp only [List.flatMap_cons, h a (List.mem_cons_self a t), List.map_cons,
        ih (fun x hx => h x (List.mem_cons_of_mem a hx))]
      rfl

namespace DboxSearchAccount

/-- `search_files_recursively(folder_path, csv_writer, dbx, search_query)`
in `dbox_search_account.py` (lines 31-47): fetch the search matches below
`folderPath`; for each match in order, recurse into it when its metadata
is `FolderMetadata`, otherwise write the row `[entry.name, entry.path_lower]`.
The returned list is the sequence of rows written. -/
def search_files_recursively (account : List DbxEntry) (q : String → Bool)
    (folderPath : List String) : List (String × List String) :=
  (files_search account folderPath q).attach.flatMap
    (fun x =>
      if x.1.isFolder then search_files_recursively account q x.1.segs
      else [(x.1.name, x.1.segs)])
termination_by (account.filter (fun e => decide (properlyWithin folderPath e.segs))).length
decreasing_by
  obtain ⟨hmem, hcond⟩ := List.mem_filter.mp x.2
  rw [Bool.and_eq_true] at hcond
  refine length_filter_lt_of_mem hmem hcond.1 ?_ ?_
  · simp [properlyWithin_irrefl]
  · intro y hy
    rw [decide_eq_true_iff] at hy ⊢
    exact properlyWithin_trans (of_decide_eq_true hcond.1) hy

theorem search_account_eq (account : List DbxEntry) (q : String → Bool) (p : List String) :
    search_files_recursively account q p
      = (files_search account p q).flatMap
          (fun e => if e.isFolder then search_files_recursively account q e.segs
                    else [(e.name, e.segs)]) := by
  rw [search_files_recursively]
  exact attach_flatMap_eq (files_search account p q)
    (fun e => if e.isFolder then search_files_recursively account q e.segs
              else [(e.name, e.segs)])

end DboxSearchAccount

/-- The tree of the C7 scenario: file `a.txt`, folder `b`, file `b/c.txt`. -/
def C7account : List DbxEntry :=
  [⟨"a.txt", ["a.txt"], false⟩, ⟨"b", ["b"], true⟩, ⟨"c.txt", ["b", "c.txt"], false⟩]

/-- Counterexample to C7: on the tree holding files `a.txt` and `b/c.txt`,
with a query matching both (here one matching every name, so folder `b` as
well), the recursive search receives `b/c.txt` once from the search below
the root and once more from the recursive search below the matching folder
`b`, so its row is written twice, not exactly once. -/
theorem C7_counterexample :
    (fun _ => true : String → Bool) "a.txt" = true
    ∧ (fun _ => true : String → Bool) "c.txt" = true
    ∧ (DboxSearchAccount.search_files_recursively C7account (fun _ => true) []).count
        ("c.txt", ["b", "c.txt"]) = 2 := by
  have hb : DboxSearchAccount.search_files_recursively C7account (fun _ => true) ["b"]
      = [("c.txt", ["b", "c.txt"])] := by
    rw [DboxSearchAccount.search_account_eq]
    simp +decide [files_search, C7account, properlyWithin]
  simp only [C7account] at hb
  refine ⟨rfl, rfl, ?_⟩
  rw [DboxSearchAccount.search_account_eq]
  simp +decide [files_search, C7account, properlyWithin, hb]

/-- C7 as amended: when the query matches no folder name of the account
(the scenario's query matches the files `a.txt` and `b/c.txt` but not the
folder `b`), the recursive search writes exactly one row per matching file
below the start folder, in search order: the output equals the matching
entries mapped to their rows, every matching file's row is written, every
row comes from a matching non-folder entry (so no folder is ever written),
and — paths in the account being distinct — no row is written twice. -/
theorem C7_no_folder_match (account : List DbxEntry) (q : String → Bool) (p : List String)
    (hnf : ∀ e ∈ account, e.isFolder = true → q e.name = false)
    (hsegs : (account.map DbxEntry.segs).Nodup) :
    DboxSearchAccount.search_files_recursively account q p
        = (files_search account p q).map (fun e => (e.name, e.segs))
    ∧ (∀ e ∈ account, e.isFolder = false → q e.name = true → properlyWithin p e.segs →
        (e.name, e.segs) ∈ DboxSearchAccount.search_files_recursively account q p)
    ∧ (∀ r ∈ DboxSearchAccount.search_files_recursively account q p,
        ∃ e ∈ account, e.isFolder = false ∧ q e.name = true ∧ properlyWithin p e.segs
          ∧ r = (e.name, e.segs))
    ∧ (DboxSearchAccount.search_files_recursively account q p).Nodup := by
  have hmain : DboxSearchAccount.search_files_recursively account q p
      = (files_search account p q).map (fun e => (e.name, e.segs)) := by
    rw [DboxSearchAccount.search_account_eq]
    apply flatMap_eq_map_of_mem
    intro e he
    obtain ⟨hacc, hcond⟩ := List.mem_filter.mp he
    rw [Bool.and_eq_true] at hcond
    by_cases hf : e.isFolder
    · exact absurd hcond.2 (by simp [hnf e hacc hf])
    · simp [hf]
  refine ⟨hmain, ?_, ?_, ?_⟩
  · intro e hacc hfile hq hwithin
    rw [hmain]
    exact List.mem_map.mpr ⟨e, List.mem_filter.mpr ⟨hacc, by simp [hwithin, hq]⟩, rfl⟩
  · intro r hr
    rw [hmain] at hr
    obtain ⟨e, he, rfl⟩ := List.mem_map.mp hr
    obtain ⟨hacc, hcond⟩ := List.mem_filter.mp he
    rw [Bool.and_eq_true, decide_eq_true_iff] at hcond
    have hfile : e.isFolder = false := by
      by_cases hf : e.isFolder
      · exact absurd hcond.2 (by simp [hnf e hacc hf])
      · simpa using hf
    exact ⟨e, hacc, hfile, hcond.2, hcond.1, rfl⟩
  · rw [hmain]
    have hsub : ((files_search account p q).map DbxEntry.segs).Nodup :=
      ((List.filter_sublist account).map DbxEntry.segs).nodup hsegs
    apply List.Nodup.of_map Prod.snd
    rw [List.map_map]
    exact hsub
/-- Witness for the amended C7: the query matching exactly the names other
than `b` emits `a.txt` and `b/c.txt` once each and no folder row. -/
theorem C7_no_folder_match_witness :
    DboxSearchAccount.search_files_recursively C7account (fun s => decide (s ≠ "b")) []
      = [("a.txt", ["a.txt"]), ("c.txt", ["b", "c.txt"])] := by
  have h := (C7_no_folder_match C7account (fun s => decide (s ≠ "b")) []
    (by decide) (by decide)).1
  rw [h]
  decide

namespace DboxSearchListIds

/-- `search_files_recursively(folder_path, csv_writer, dbx, search_query, dbmid)`
in `dbox_search_list_ids.py` (lines 31-48): as in the single-account
script, but each written row is `[entry.name, entry.path_lower, dbmid]`,
`dbmid` being the member ID the call was made for. -/
def search_files_recursively (account : List DbxEntry) (q : String → Bool)
    (dbmid : String) (folderPath : List String) : List (String × List String × String) :=
  (files_search account folderPath q).attach.flatMap
    (fun x =>
      if x.1.isFolder then search_files_recursively account q dbmid x.1.segs
      else [(x.1.name, x.1.segs, dbmid)])
termination_by (account.filter (fun e => decide (properlyWithin folderPath e.segs))).length
decreasing_by
  obtain ⟨hmem, hcond⟩ := List.mem_filter.mp x.2
  rw [Bool.and_eq_true] at hcond
  refine length_filter_lt_of_mem hmem hcond.1 ?_ ?_
  · simp [properlyWithin_irrefl]
  · intro y hy
    rw [decide_eq_true_iff] at hy ⊢
    exact properlyWithin_trans (of_decide_eq_true hcond.1) hy

theorem search_ids_eq (account : List DbxEntry) (q : String → Bool)
    (dbmid : String) (p : List String) :
    search_files_recursively account q dbmid p
      = (files_search account p q).flatMap
          (fun e => if e.isFolder then search_files_recursively account q dbmid e.segs
                    else [(e.name, e.segs, dbmid)]) := by
  rw [search_files_recursively]
  exact attach_flatMap_eq (files_search account p q)
    (fun e => if e.isFolder then search_files_recursively account q dbmid e.segs
              else [(e.name, e.segs, dbmid)])

/-- The per-member loop of `export_files_to_csv` in `dbox_search_list_ids.py`
(lines 72-77): for each `dbmid` of the input list in order, the shared
client's `Dropbox-API-Select-User` header is set to `dbmid` — so the
subsequent calls act on that member's account, `accounts dbmid` — and the
recursive search appends its rows to the output file. -/
def export_rows (accounts : String → List DbxEntry) (q : String → Bool)
    (dbmid_list : List String) : List (String × List String × String) :=
  dbmid_list.flatMap (fun dbmid => search_files_recursively (accounts dbmid) q dbmid [])

theorem search_ids_third (account : List DbxEntry) (q : String → Bool) (dbmid : String) :
    ∀ n p, (account.filter (fun e => decide (properlyWithin p e.segs))).length ≤ n →
      ∀ r ∈ search_files_recursively account q dbmid p, r.2.2 = dbmid := by
  intro n
  induction n with
  | zero =>
      intro p hlen r hr
      rw [search_ids_eq] at hr
      obtain ⟨e, he, _⟩ := List.mem_flatMap.mp hr
      obtain ⟨hacc, hcond⟩ := List.mem_filter.mp he
      rw [Bool.and_eq_true] at hcond
      have : e ∈ account.filter (fun e => decide (properlyWithin p e.segs)) :=
        List.mem_filter.mpr ⟨hacc, hcond.1⟩
      rw [List.length_eq_zero.mp (Nat.le_zero.mp hlen)] at this
      cases this
  | succ n ih =>
      intro p hlen r hr
      rw [search_ids_eq] at hr
      obtain ⟨e, he, hre⟩ := List.mem_flatMap.mp hr
      obtain ⟨hacc, hcond⟩ := List.mem_filter.mp he
      rw [Bool.and_eq_true] at hcond
      by_cases hf : e.isFolder
      · rw [if_pos hf] at hre
        refine ih e.segs ?_ r hre
        have hlt := length_filter_lt_of_mem (l := account)
          (p := fun x => decide (properlyWithin e.segs x.segs))
          (q := fun x => decide (properlyWithin p x.segs))
          hacc hcond.1 (by simp [properlyWithin_irrefl]) ?_
        · omega
        · intro y hy
          rw [decide_eq_true_iff] at hy ⊢
          exact properlyWithin_trans (of_decide_eq_true hcond.1) hy
      · rw [if_neg hf] at hre
        rw [List.mem_singleton.mp hre]

end DboxSearchListIds

/-- C9: during the search made for member `u` of the input's `dbmid` list,
every row written carries exactly `u` in its third column, and those rows
are part of the file's output (the sequential header mutation never
attributes a row to another account). -/
theorem C9_rows_carry_dbmid (accounts : String → List DbxEntry) (q : String → Bool)
    (dbmid_list : List String) (u : String) (r : String × List String × String)
    (hu : u ∈ dbmid_list)
    (hr : r ∈ DboxSearchListIds.search_files_recursively (accounts u) q u []) :
    r.2.2 = u ∧ r ∈ DboxSearchListIds.export_rows accounts q dbmid_list := by
  constructor
  · exact DboxSearchListIds.search_ids_third (accounts u) q u _ [] (Nat.le_refl _) r hr
  · exact List.mem_flatMap.mpr ⟨u, hu, hr⟩

/-- Witness for C9 on the concrete tree and two members. -/
theorem C9_rows_carry_dbmid_witness :
    (("c.txt", (["b", "c.txt"], "u1")) : String × List String × String).2.2 = "u1"
    ∧ (("c.txt", (["b", "c.txt"], "u1")) : String × List String × String)
        ∈ DboxSearchListIds.export_rows (fun _ => C7account) (fun s => decide (s ≠ "b")) ["u1", "u2"] := by
  have hval : DboxSearchListIds.search_files_recursively C7account (fun s => decide (s ≠ "b")) "u1" []
      = [("a.txt", ["a.txt"], "u1"), ("c.txt", ["b", "c.txt"], "u1")] := by
    rw [DboxSearchListIds.search_ids_eq]
    simp +decide [files_search, C7account, properlyWithin]
  exact C9_rows_carry_dbmid (fun _ => C7account) (fun s => decide (s ≠ "b")) ["u1", "u2"]
    "u1" ("c.txt", ["b", "c.txt"], "u1") (by decide) (by rw [hval]; decide)

/-- A file system, mapping a path to the file's contents when the file
exists. -/
def FileSystem : Type := String → Option String

/-- The message each script prints when the token file is missing. -/
def missing_file_message (path : String) : String :=
  "Error: The file " ++ path ++ " was not found."

/-- Outcome of a script's token-loading prologue: either the token (the
file's contents, stripped), or termination of the run with the printed
message and the process exit status. -/
inductive TokenLoad where
  | ok (token : String)
  | terminated (printed : String) (exit_code : Nat)
  deriving Repr, DecidableEq

namespace DropboxMembersListv2

/-- Token loading in `main` of `dropbox_members_listv2.py` (lines 106-111):
on `FileNotFoundError` it prints the message and `return`s from `main`;
the interpreter then finishes the script normally, so the process exit
status is 0. -/
def read_token_file (fs : FileSystem) (path : String) : TokenLoad :=
  match fs path with
  | some contents => .ok contents.trim
  | none => .terminated (missing_file_message path) 0

end DropboxMembersListv2

namespace DboxSearchAccount

/-- Token loading in `dbox_search_account.py` (lines 79-84): on
`FileNotFoundError` it prints the message and calls `exit(1)`. -/
def read_token_file (fs : FileSystem) (path : String) : TokenLoad :=
  match fs path with
  | some contents => .ok contents.trim
  | none => .terminated (missing_file_message path) 1

end DboxSearchAccount

namespace DboxSearchListIds

/-- Token loading in `dbox_search_list_ids.py` (lines 83-88): on
`FileNotFoundError` it prints the message and calls `exit(1)`. -/
def read_token_file (fs : FileSystem) (path : String) : TokenLoad :=
  match fs path with
  | some contents => .ok contents.trim
  | none => .terminated (missing_file_message path) 1

end DboxSearchListIds

namespace DboxUserFileExport

/-- Token loading in `dbox_user_file_export.py` (lines 39-44): on
`FileNotFoundError` it prints the message and calls `exit(1)`. -/
def read_token_file (fs : FileSystem) (path : String) : TokenLoad :=
  match fs path with
  | some contents => .ok contents.trim
  | none => .terminated (missing_file_message path) 1

end DboxUserFileExport

/-- Counterexample to C6: when the token file is missing, the members-list
script prints the message but merely `return`s from `main`, so the process
exits with status 0, not a non-zero status as the claim demands of every
script. -/
theorem C6_counterexample :
    DropboxMembersListv2.read_token_file (fun _ => none) "token.txt"
      = .terminated (missing_file_message "token.txt") 0 := rfl

/-- C6 as amended: with a missing token file every script reports it with
the same message, the two search scripts and the file-export script then
exit with status 1, but the members-list script returns from `main` and
the process exits with status 0. -/
theorem C6_missing_token_file (fs : FileSystem) (path : String) (h : fs path = none) :
    DropboxMembersListv2.read_token_file fs path = .terminated (missing_file_message path) 0
    ∧ DboxSearchAccount.read_token_file fs path = .terminated (missing_file_message path) 1
    ∧ DboxSearchListIds.read_token_file fs path = .terminated (missing_file_message path) 1
    ∧ DboxUserFileExport.read_token_file fs path = .terminated (missing_file_message path) 1 := by
  refine ⟨?_, ?_, ?_, ?_⟩ <;>
    simp [DropboxMembersListv2.read_token_file, DboxSearchAccount.read_token_file,
      DboxSearchListIds.read_token_file, DboxUserFileExport.read_token_file, h]

/-- Witness for the amended C6 at a concrete empty file system. -/
theorem C6_missing_token_file_witness :
    DropboxMembersListv2.read_token_file (fun _ => none) "t.txt"
        = .terminated (missing_file_message "t.txt") 0
    ∧ DboxSearchAccount.read_token_file (fun _ => none) "t.txt"
        = .terminated (missing_file_message "t.txt") 1
    ∧ DboxSearchListIds.read_token_file (fun _ => none) "t.txt"
        = .terminated (missing_file_message "t.txt") 1
    ∧ DboxUserFileExport.read_token_file (fun _ => none) "t.txt"
        = .terminated (missing_file_message "t.txt") 1 :=
  C6_missing_token_file (fun _ => none) "t.txt" rfl

theorem mapM_except_ok {α β ε : Type} (l : List α) (f : α → Except ε β) (g : α → β)
    (h : ∀ a ∈ l, f a = .ok (g a)) : l.mapM f = .ok (l.map g) := by
  induction l with
  | nil => rfl
  | cons a t ih =>
      rw [List.mapM_cons, h a (List.mem_cons_self a t),
        ih (fun x hx => h x (List.mem_cons_of_mem a hx))]
      rfl

namespace DboxUserFileExport

/-- One accumulated entry, a JSON object: its key-value pairs in object
order. -/
def Record : Type := List (String × String)

/-- The keys of an entry (`entry.keys()`). -/
def record_keys (e : Record) : List String :=
  e.map Prod.fst

/-- Lines 113-118 of `dbox_user_file_export.py`: a `set` accumulates
`entry.keys()` over every entry and `list(...)` turns it into the header
list.  Python's set iteration order is unspecified; it is modelled as
first-occurrence order, and the theorems below use only membership. -/
def csv_headers (entries : List Record) : List String :=
  (entries.flatMap record_keys).dedup

/-- Modelled from the Python `csv` library the script calls:
`DictWriter.writerow(entry)` with the defaults `restval=''` and
`extrasaction='raise'` writes, for each field name in order, the entry's
value there or the empty string when the key is absent, and raises
`ValueError` when the entry holds a key outside `fieldnames`. -/
def dictwriter_writerow (fieldnames : List String) (e : Record) : Except String (List String) :=
  if e.all (fun kv => fieldnames.contains kv.1) then
    .ok (fieldnames.map (fun f => ((e.lookup f).getD "")))
  else .error "dict contains fields not in fieldnames"

/-- Lines 120-127: open the CSV file, `writeheader()`, then one
`writerow(entry)` per accumulated entry in order.  The result is the list
of written CSV rows, header first, or the `ValueError` if one is raised. -/
def csv_export (entries : List Record) : Except String (List (List String)) :=
  (entries.mapM (dictwriter_writerow (csv_headers entries))).map
    (fun rows => csv_headers entries :: rows)

/-- Lines 108-110: `json.dump(entries, file)` writes the accumulated list
as a JSON array, one object per entry, in list order; modelled as the
entry sequence itself. -/
def json_export (entries : List Record) : List Record :=
  entries

theorem record_keys_mem_headers (entries : List Record) (e : Record) (he : e ∈ entries)
    (k : String) (hk : k ∈ record_keys e) : k ∈ csv_headers entries := by
  rw [csv_headers, List.mem_dedup]
  exact List.mem_flatMap.mpr ⟨e, he, hk⟩

theorem csv_export_eq (entries : List Record) :
    csv_export entries
      = .ok (csv_headers entries
          :: entries.map (fun e => (csv_headers entries).map (fun f => ((e.lookup f).getD "")))) := by
  rw [csv_export, mapM_except_ok entries (dictwriter_writerow (csv_headers entries))
    (fun e => (csv_headers entries).map (fun f => ((e.lookup f).getD "")))]
  · rfl
  · intro e he
    rw [dictwriter_writerow, if_pos]
    rw [List.all_eq_true]
    intro kv hkv
    simpa using record_keys_mem_headers entries e he kv.1 (List.mem_map.mpr ⟨kv, hkv, rfl⟩)

end DboxUserFileExport

/-- C8: the CSV export succeeds (no `ValueError`), writing first a header
row whose fields are exactly the keys appearing in some accumulated entry,
then one row per entry in accumulation order, each row listing, per header
field, the entry's value there — with the empty string where the entry
lacks the key. -/
theorem C8_csv_headers_union (entries : List DboxUserFileExport.Record) :
    DboxUserFileExport.csv_export entries
      = .ok (DboxUserFileExport.csv_headers entries
          :: entries.map (fun e => (DboxUserFileExport.csv_headers entries).map
              (fun f => match e.lookup f with | some v => v | none => "")))
    ∧ (∀ k, k ∈ DboxUserFileExport.csv_headers entries
        ↔ ∃ e ∈ entries, k ∈ DboxUserFileExport.record_keys e) := by
  constructor
  · rw [DboxUserFileExport.csv_export_eq]
    refine congrArg Except.ok (congrArg (List.cons _) ?_)
    apply List.map_congr_left
    intro e _
    apply List.map_congr_left
    intro f _
    cases e.lookup f <;> rfl
  · intro k
    rw [DboxUserFileExport.csv_headers, List.mem_dedup, List.mem_flatMap]

/-- C10: the JSON file and the CSV file serialize the same accumulated
sequence: the JSON array is exactly the accumulated entries in order, the
CSV holds one data row per accumulated entry in the same order, and the
JSON array length equals the number of CSV data rows. -/
theorem C10_json_csv_same_sequence (entries : List DboxUserFileExport.Record) :
    DboxUserFileExport.json_export entries = entries
    ∧ DboxUserFileExport.csv_export entries
        = .ok (DboxUserFileExport.csv_headers entries
            :: (DboxUserFileExport.json_export entries).map
                (fun e => (DboxUserFileExport.csv_headers entries).map
                  (fun f => ((e.lookup f).getD ""))))
    ∧ ((DboxUserFileExport.json_export entries).map
          (fun e => (DboxUserFileExport.csv_headers entries).map
            (fun f => ((e.lookup f).getD "")))).length
        = (DboxUserFileExport.json_export entries).length := by
  refine ⟨rfl, DboxUserFileExport.csv_export_eq entries, List.length_map _ _⟩
